import Mathlib

/-!
Verification of the notification scheduling and delivery pipeline of the
license-management application.

The development shallowly embeds the relevant JavaScript source files:

* backend/services/emailService.js (the named backend variant), and the
  second evolving variant of the same service found in src/unnamed/part_011;
* backend/services/scheduler.js (per-user cron registry);
* backend/routes/settings.js (the test-email endpoint).

Dates are modelled at day granularity (an integer day number) for the SQL
selectors, and at millisecond granularity for the JavaScript date arithmetic
in processLicenseExpirations.  Nullable SQL columns and absent JavaScript
values are modelled as Option.  JavaScript string truthiness (null, undefined
and the empty string are falsy) is modelled explicitly by jsTruthy.
-/

namespace LicenseMgmt

/-- A row of the licenses table, joined with vendor and customer display
names as produced by the selector queries.  expirationDate is a day number
(days since the epoch); updatedAt is a millisecond timestamp. -/
structure License where
  id : Nat
  name : String
  licenseKey : Option String
  vendorName : Option String
  customerName : Option String
  expirationDate : Int
  isActive : Bool
  notificationSent : Bool
  updatedAt : Int
deriving Repr, DecidableEq

/-- JavaScript truthiness of a nullable string: null/undefined and the empty
string are falsy. -/
def jsTruthy : Option String → Bool
  | none => false
  | some s => s ≠ ""

/-- JavaScript a || b on nullable strings. -/
def jsOr (a b : Option String) : Option String :=
  if jsTruthy a then a else b

/-- Insertion step for the embedding of the ORDER BY clauses: insert a with
respect to the boolean comparison le. -/
def insertLE {α : Type} (le : α → α → Bool) (a : α) : List α → List α
  | [] => [a]
  | b :: l => if le a b then a :: b :: l else b :: insertLE le a l

/-- Sorting for the embedding of the ORDER BY clauses (ordering is not at
stake in any claim; only membership is used). -/
def sortLE {α : Type} (le : α → α → Bool) : List α → List α
  | [] => []
  | a :: l => insertLE le a (sortLE le l)

theorem mem_insertLE {α : Type} (le : α → α → Bool) (a x : α) (l : List α) :
    x ∈ insertLE le a l ↔ x = a ∨ x ∈ l := by
  induction l with
  | nil => simp [insertLE]
  | cons b t ih =>
    by_cases h : le a b = true
    · simp [insertLE, h]
    · simp only [insertLE, h]
      simp [ih]
      tauto

theorem mem_sortLE {α : Type} (le : α → α → Bool) (x : α) (l : List α) :
    x ∈ sortLE le l ↔ x ∈ l := by
  induction l with
  | nil => simp [sortLE]
  | cons a t ih => simp [sortLE, mem_insertLE, ih]

/-! ## Expiring-license selector, backend variant

Embedding of getExpiringLicenses in backend/services/emailService.js.
The WHERE clause is

  l.expiration_date BETWEEN CURRENT_DATE
    AND (CURRENT_DATE + daysAhead * INTERVAL one day)
  AND l.is_active = true

and the includeInactive parameter is not used by the query at all.
ORDER BY l.expiration_date ASC. -/

/-- WHERE clause of the backend-variant selector query. -/
def backendSelectPred (today daysAhead : Int) (l : License) : Bool :=
  (today ≤ l.expirationDate && l.expirationDate ≤ today + daysAhead) && l.isActive

/-- getExpiringLicenses, backend/services/emailService.js variant.  The
includeInactive argument is accepted but, as in the source, never used. -/
def getExpiringLicenses_backend (db : List License) (today daysAhead : Int)
    (includeInactive : Bool) : List License :=
  sortLE (fun a b => a.expirationDate ≤ b.expirationDate)
    (db.filter (backendSelectPred today daysAhead))

/-! ## Expiring-license selector, part_011 variant

Embedding of getExpiringLicenses in src/unnamed/part_011.  The WHERE clause is

  (l.expiration_date BETWEEN (CURRENT_DATE - daysAhead * INTERVAL one day)
      AND (CURRENT_DATE + daysAhead * INTERVAL one day)
   OR l.expiration_date < CURRENT_DATE)
  [AND l.is_active = true  -- only when includeInactive is false]

ORDER BY (expired first), then ABS(expiration_date - CURRENT_DATE). -/

/-- WHERE clause of the part_011-variant selector query. -/
def p011SelectPred (today daysAhead : Int) (includeInactive : Bool)
    (l : License) : Bool :=
  ((today - daysAhead ≤ l.expirationDate && l.expirationDate ≤ today + daysAhead)
      || l.expirationDate < today)
    && (includeInactive || l.isActive)

/-- ORDER BY of the part_011 variant: the CASE puts expired rows first, then
rows are ordered by the absolute distance of the expiration from today. -/
def p011OrderLE (today : Int) (a b : License) : Bool :=
  let ra : Int := if a.expirationDate < today then 0 else 1
  let rb : Int := if b.expirationDate < today then 0 else 1
  (ra < rb) || (ra == rb &&
    (a.expirationDate - today).natAbs ≤ (b.expirationDate - today).natAbs)

/-- getExpiringLicenses, src/unnamed/part_011 variant. -/
def getExpiringLicenses_p011 (db : List License) (today daysAhead : Int)
    (includeInactive : Bool) : List License :=
  sortLE (p011OrderLE today) (db.filter (p011SelectPred today daysAhead includeInactive))

/-! ## Recipient resolution

Embedding of the recipient-resolution block of processLicenseExpirations
(backend/services/emailService.js lines 259-307; identical in part_011)
together with getUserEmail. -/

/-- One row of the query
  SELECT uns.email_address, u.email FROM user_notification_settings uns
  JOIN users u ON u.id = uns.user_id WHERE uns.user_id = userId.
Both columns are nullable. -/
structure SettingsJoinRow where
  emailAddress : Option String
  loginEmail : Option String
deriving Repr, DecidableEq

/-- The ambient data the resolution step reads: the ADMIN_EMAIL environment
variable, the settings-join query result per user id, and the users.email
column per user id. -/
structure Env where
  adminEmail : Option String
  settingsRow : Nat → Option SettingsJoinRow
  userLoginEmail : Nat → Option String

/-- getUserEmail: SELECT email FROM users WHERE id = userId, then
rows[0]?.email || null, so an empty-string email also becomes null. -/
def getUserEmail (env : Env) (userId : Nat) : Option String :=
  if jsTruthy (env.userLoginEmail userId) then env.userLoginEmail userId else none

/-- The per-license recipient resolution of processLicenseExpirations.
Returns (recipient, userEmail).  recipient starts as process.env.ADMIN_EMAIL;
with a userId and a settings row, recipient = email_address || email (the
joined login email); with a userId and no settings row, recipient falls back
to getUserEmail(userId) when that is truthy.  JavaScript treats a user id of
0 as absent; ids here are the positive SERIAL keys, so userId is an Option. -/
def resolveRecipient (env : Env) (userId : Option Nat) :
    Option String × Option String :=
  match userId with
  | none => (env.adminEmail, none)
  | some u =>
    match env.settingsRow u with
    | some s =>
      let r := jsOr s.emailAddress s.loginEmail
      (r, r)
    | none =>
      let ue := getUserEmail env u
      (if jsTruthy ue then ue else env.adminEmail, ue)

/-! ## daysUntilExpiry

Embedding of
  const today = new Date();
  const expiryDate = new Date(license.expiration_date);
  const timeDiff = expiryDate.getTime() - today.getTime();
  const daysUntilExpiry = Math.ceil(timeDiff / (1000 * 3600 * 24));
expiryDate is the midnight of the stored expiration date; today is the
current instant.  Both are millisecond timestamps. -/

/-- Milliseconds in one day, the divisor 1000 * 3600 * 24 from the source. -/
def msPerDay : Int := 1000 * 3600 * 24

/-- Math.ceil(a / b) for integers a and b with b > 0 (division in Lean on Int
is floor division, so the ceiling is the negated floor of the negated
numerator). -/
def jsCeilDiv (a b : Int) : Int := -((-a) / b)

/-- daysUntilExpiry as computed inside processLicenseExpirations. -/
def daysUntilExpiry (expiryMs nowMs : Int) : Int :=
  jsCeilDiv (expiryMs - nowMs) msPerDay

/-! ## Grouping licenses by recipient

Embedding of the licensesByRecipient Map construction in
processLicenseExpirations (lines 255-332 of the backend variant). -/

/-- The value stored per recipient in the licensesByRecipient Map: the
recipient address, the resolved userEmail, and the list of
(license, daysUntilExpiry) items pushed so far. -/
structure Digest where
  email : String
  userEmail : Option String
  licenses : List (License × Int)
deriving Repr, DecidableEq

/-- JavaScript Map semantics on an association list in insertion order:
if the key is absent, append a fresh entry with an empty license list, then
push the item onto the entry with that key. -/
def pushToRecipient (m : List (String × Digest)) (r : String)
    (ue : Option String) (it : License × Int) : List (String × Digest) :=
  match m with
  | [] => [(r, ⟨r, ue, [it]⟩)]
  | (k, d) :: rest =>
    if k = r then (k, { d with licenses := d.licenses ++ [it] }) :: rest
    else (k, d) :: pushToRecipient rest r ue it

/-- One iteration of the grouping loop of processLicenseExpirations:
resolve the recipient for the license (skipping it when the recipient is not
truthy), compute daysUntilExpiry from the expiration midnight and the
current instant nowMs, and push into the Map. -/
def groupStep (env : Env) (userId : Option Nat) (nowMs : Int)
    (m : List (String × Digest)) (lic : License) : List (String × Digest) :=
  match (resolveRecipient env userId).1 with
  | some r =>
    if r = "" then m
    else pushToRecipient m r (resolveRecipient env userId).2
      (lic, daysUntilExpiry (lic.expirationDate * msPerDay) nowMs)
  | none => m

/-- The grouping loop of processLicenseExpirations over the selected
licenses, starting from the empty licensesByRecipient Map. -/
def groupLicenses (env : Env) (userId : Option Nat) (nowMs : Int)
    (selected : List License) : List (String × Digest) :=
  selected.foldl (groupStep env userId nowMs) []

/-! ## Errors and the email sender

sendLicenseExpirationEmail wraps its whole body in try/catch.  The catch
block logs an object whose fields read the identifiers license and
daysUntilExpiry; neither is in scope there (license is only bound inside the
for...of marking loop, daysUntilExpiry only inside the map callback), so
evaluating the log payload raises ReferenceError before the enhanced error
is ever constructed, and that ReferenceError is what propagates to the
caller. -/

/-- The JavaScript error values that can escape the email service. -/
inductive JsError where
  | referenceError (msg : String)
  | typeError (msg : String)
  | plainError (msg : String)
deriving Repr, DecidableEq

/-- What the catch block of sendLicenseExpirationEmail actually raises,
for any caught error: evaluating licenseId: license?.id in the logger
payload reads the unbound identifier license. -/
def sendEmailCatchResult (_caught : JsError) : JsError :=
  JsError.referenceError "license is not defined"

/-- The error the catch block was written to produce (new Error with the
"Failed to send email: " message plus originalError/licenseId/recipient
context); unreachable in the source because of sendEmailCatchResult. -/
def intendedEnhancedError (caught : JsError) : JsError :=
  match caught with
  | .referenceError m => .plainError ("Failed to send email: " ++ m)
  | .typeError m => .plainError ("Failed to send email: " ++ m)
  | .plainError m => .plainError ("Failed to send email: " ++ m)

/-- markLicenseAsNotified: UPDATE licenses SET notification_sent = true,
updated_at = NOW() WHERE id = licenseId. -/
def markLicenseAsNotified (store : List License) (licenseId : Nat)
    (nowMs : Int) : List License :=
  store.map (fun l =>
    if l.id = licenseId then { l with notificationSent := true, updatedAt := nowMs }
    else l)

/-- The row update performed by markLicenseAsNotified on a matching row. -/
def markRow (nowMs : Int) (l : License) : License :=
  { l with notificationSent := true, updatedAt := nowMs }

/-- The marking loop after a successful transporter.sendMail: for each item,
when license.id is truthy, try markLicenseAsNotified; a per-license update
failure (markFail) is caught and logged and the loop continues. -/
def markAllNotified (store : List License) (items : List (License × Int))
    (markFail : Nat → Bool) (nowMs : Int) : List License :=
  items.foldl (fun st it =>
    if it.1.id ≠ 0 then
      if markFail it.1.id then st
      else markLicenseAsNotified st it.1.id nowMs
    else st) store

/-- The ids the marking loop successfully writes: ids of included items that
are truthy and whose UPDATE does not fail. -/
def markedIds (items : List (License × Int)) (markFail : Nat → Bool) : List Nat :=
  (items.map (fun it => it.1.id)).filter (fun i => i ≠ 0 && !markFail i)

/-- sendLicenseExpirationEmail on a well-formed digest (the call shape used
by processLicenseExpirations): guard the transporter and recipient, render,
hand to the transport, and on acceptance run the marking loop.  Any raised
error goes through the catch block (sendEmailCatchResult) and is rethrown.
Returns the updated store and the result. -/
def sendLicenseExpirationEmail (store : List License) (transporterOk : Bool)
    (recipient : Option String) (transportAccepts : Bool)
    (markFail : Nat → Bool) (items : List (License × Int)) (nowMs : Int) :
    List License × Except JsError Bool :=
  if !transporterOk then
    (store, .error (sendEmailCatchResult
      (.plainError "Email transporter is not properly initialized")))
  else if !jsTruthy recipient then
    (store, .error (sendEmailCatchResult
      (.plainError "No recipient email address provided")))
  else if !transportAccepts then
    (store, .error (sendEmailCatchResult (.plainError "transport rejected")))
  else
    (markAllNotified store items markFail nowMs, .ok true)

/-- The per-recipient send loop of processLicenseExpirations: digests with an
empty license list are skipped; each other digest is sent, a send error is
caught and logged and the loop continues with the remaining recipients; on
success the notification count grows by the number of licenses in the digest.
Returns (final store, recipients attempted in order, notification count). -/
def sendLoop (fail : String → Bool) (markFail : Nat → Bool) (nowMs : Int) :
    List License → List (String × Digest) → List License × List String × Nat
  | store, [] => (store, [], 0)
  | store, (r, d) :: rest =>
    if d.licenses = [] then sendLoop fail markFail nowMs store rest
    else
      match sendLicenseExpirationEmail store true (some r) (!fail r)
          markFail d.licenses nowMs with
      | (st, .ok _) =>
        let out := sendLoop fail markFail nowMs st rest
        (out.1, r :: out.2.1, out.2.2 + d.licenses.length)
      | (st, .error _) =>
        let out := sendLoop fail markFail nowMs st rest
        (out.1, r :: out.2.1, out.2.2)

/-- processLicenseExpirations, backend variant: select (with its own
getExpiringLicenses), group by resolved recipient, then send one digest per
recipient.  Returns the final store and the notification count. -/
def processLicenseExpirations (env : Env) (store : List License)
    (today nowMs daysAhead : Int) (includeInactive : Bool)
    (userId : Option Nat) (fail : String → Bool) (markFail : Nat → Bool) :
    List License × Nat :=
  let selected := getExpiringLicenses_backend store today daysAhead includeInactive
  let groups := groupLicenses env userId nowMs selected
  let out := sendLoop fail markFail nowMs store groups
  (out.1, out.2.2)

/-! ## Email body composition

The two variants render the digest body differently.  The HTML is abstracted
to a list of blocks: section headers and table rows (license name, customer,
vendor, status text); styling, dates and the surrounding prose are not at
stake in any claim. -/

/-- An abstract block of the rendered email body. -/
inductive EmailBlock where
  | sectionHeader (title : String) (count : Nat)
  | row (name : String) (customer : String) (vendor : String) (statusText : String)
deriving Repr, DecidableEq

/-- JavaScript value || fallback for the N/A cells: null, undefined and the
empty string fall through to the fallback. -/
def orNA (v : Option String) : String :=
  match v with
  | some s => if s = "" then "N/A" else s
  | none => "N/A"

/-- Status cell of the single backend-variant table: expired rows read
"Expired N days ago", the rest "N days". -/
def backendStatusText (d : Int) : String :=
  if d < 0 then
    "Expired " ++ toString (-d) ++ " day" ++ (if -d ≠ 1 then "s" else "") ++ " ago"
  else
    toString d ++ " day" ++ (if d ≠ 1 then "s" else "")

/-- Body of the backend-variant sendLicenseExpirationEmail (lines 89-134):
one table over all sorted items, no section structure. -/
def composeBody_backend (sorted : List (License × Int)) : List EmailBlock :=
  sorted.map (fun it =>
    EmailBlock.row it.1.name (orNA it.1.customerName) (orNA it.1.vendorName)
      (backendStatusText it.2))

/-- Status cell of the part_011 Expired section: Math.abs of the negative
day count, rendered as "N days ago". -/
def p011ExpiredStatus (d : Int) : String :=
  toString d.natAbs ++ " day" ++ (if d.natAbs ≠ 1 then "s" else "") ++ " ago"

/-- Status cell of the part_011 Expiring Soon section: "in N days". -/
def p011ExpiringStatus (d : Int) : String :=
  "in " ++ toString d ++ " day" ++ (if d ≠ 1 then "s" else "")

/-- A rendered row of the part_011 Expired table: name, customer and vendor
cells all use the N/A fallback. -/
def p011ExpiredRow (it : License × Int) : EmailBlock :=
  EmailBlock.row (if it.1.name = "" then "N/A" else it.1.name)
    (orNA it.1.customerName) (orNA it.1.vendorName) (p011ExpiredStatus it.2)

/-- A rendered row of the part_011 Expiring Soon table. -/
def p011ExpiringRow (it : License × Int) : EmailBlock :=
  EmailBlock.row (if it.1.name = "" then "N/A" else it.1.name)
    (orNA it.1.customerName) (orNA it.1.vendorName) (p011ExpiringStatus it.2)

/-- Body of the part_011 sendLicenseExpirationEmail (lines 94-193): the
sorted items are split by days_until_expiry < 0; an Expired Licenses section
is emitted only when that split is non-empty, then an Expiring Soon section
only when its split is non-empty. -/
def composeBody_p011 (sorted : List (License × Int)) : List EmailBlock :=
  let expired := sorted.filter (fun it => it.2 < 0)
  let expiring := sorted.filter (fun it => it.2 ≥ 0)
  (if expired.length > 0 then
    EmailBlock.sectionHeader "Expired Licenses" expired.length
      :: expired.map p011ExpiredRow
  else [])
  ++
  (if expiring.length > 0 then
    EmailBlock.sectionHeader "Expiring Soon" expiring.length
      :: expiring.map p011ExpiringRow
  else [])

/-! ## Per-user scheduler

Embedding of backend/services/scheduler.js.  The in-memory Map of user id to
cron task handle is an association list in insertion order; task handles are
abstract numbers. -/

/-- The activeTasks Map: user id paired with the installed task handle. -/
abbrev TaskRegistry := List (Nat × Nat)

/-- activeTasks.has(userId). -/
def hasTask (reg : TaskRegistry) (userId : Nat) : Bool :=
  reg.any (fun p => p.1 = userId)

/-- existingTask.stop(); activeTasks.delete(userId). -/
def stopAndDelete (reg : TaskRegistry) (userId : Nat) : TaskRegistry :=
  reg.filter (fun p => p.1 ≠ userId)

/-- scheduleUserNotifications(user): cancel any existing task for the user
id first; then parse notification_time and install the recurring daily cron
task (modelled by the fresh handle newTask).  When the time fails to parse
(user.notification_time.split throws), the catch returns null and nothing
is installed, the old task staying cancelled. -/
def scheduleUserNotifications (reg : TaskRegistry) (userId : Nat)
    (timeParseOk : Bool) (newTask : Nat) : TaskRegistry :=
  let reg1 := if hasTask reg userId then stopAndDelete reg userId else reg
  if timeParseOk then reg1 ++ [(userId, newTask)] else reg1

/-- updateUserSchedule(userId): re-read settings; when a row with
send_to_email = true exists (enabledRow = some timeParseOk), reschedule;
otherwise stop and delete any existing task. -/
def updateUserSchedule (reg : TaskRegistry) (userId : Nat)
    (enabledRow : Option Bool) (newTask : Nat) : TaskRegistry :=
  match enabledRow with
  | some timeParseOk => scheduleUserNotifications reg userId timeParseOk newTask
  | none => if hasTask reg userId then stopAndDelete reg userId else reg

/-! ## The test-email endpoint

Embedding of GET /test-email in backend/routes/settings.js.  The route
resolves recipient = user.email_address || user.email from a LEFT JOIN of
users with user_notification_settings, builds one synthetic test license,
and then calls

  sendLicenseExpirationEmail(recipient, testContract.name,
    testContract.vendor_name, testContract.customer_name,
    testContract.expiration_date, 7)

while the exported function has the signature
sendLicenseExpirationEmail(licenses, recipient, userEmail): the recipient
STRING is bound to the licenses parameter.  A small dynamic value model
captures what the function body then does with a string in that position. -/

/-- The dynamic JavaScript values the mismatched call makes the email
service handle. -/
inductive JsVal where
  | undefined
  | str (s : String)
  | num (n : Int)
  | item (license : JsVal) (daysUntilExpiry : JsVal)
deriving Repr, DecidableEq

/-- Property access: reading any property of undefined raises TypeError;
the item objects expose license and daysUntilExpiry; other bases (strings,
numbers) yield undefined for these names. -/
def getProp (v : JsVal) (f : String) : Except JsError JsVal :=
  match v with
  | .undefined => .error (.typeError
      ("Cannot read properties of undefined (reading " ++ f ++ ")"))
  | .item lic d =>
    .ok (if f = "license" then lic else if f = "daysUntilExpiry" then d else .undefined)
  | _ => .ok .undefined

/-- The spread [...licenses]: a string spreads into its one-character
strings, an array of items into its items; spreading undefined or a number
raises TypeError (not iterable). -/
def jsSpread (v : JsVal) (itemsOf : List JsVal) : Except JsError (List JsVal) :=
  match v with
  | .str s => .ok (s.toList.map (fun c => .str (String.mk [c])))
  | .item _ _ => .ok itemsOf
  | _ => .error (.typeError "argument is not iterable")

/-- One row of the backend body table for a dynamic element: the map
callback destructures license and daysUntilExpiry from the element and then
reads license.expiration_date, license.name, license.license_key and so on;
with a one-character string element, license is undefined and the first
read raises TypeError. -/
def renderRowDyn (elem : JsVal) : Except JsError String := do
  let license ← getProp elem "license"
  let _expiry ← getProp license "expiration_date"
  let _name ← getProp license "name"
  pure "row"

/-- Render every row, stopping at the first raised error. -/
def renderRowsDyn : List JsVal → Except JsError (List String)
  | [] => .ok []
  | e :: rest => do
    let r ← renderRowDyn e
    let rs ← renderRowsDyn rest
    pure (r :: rs)

/-- The body of the backend sendLicenseExpirationEmail applied to a dynamic
first argument, as the mismatched route call does.  Returns the result and
the number of transporter.sendMail calls performed.  The sort comparator
reads daysUntilExpiry on both sides; on one-character strings that is
undefined, the comparator returns NaN and the order is left as is, so the
sort step raises nothing and is omitted.  The destructuring of the first
sorted element (subject construction) raises TypeError when the list is
empty (destructuring undefined).  Any raised error is rethrown by the catch
block as sendEmailCatchResult. -/
def sendLicenseExpirationEmailDyn (licensesArg : JsVal)
    (itemsOf : List JsVal) (recipientArg : Option String)
    (transportAccepts : Bool) : Except JsError Bool × Nat :=
  let inner : Except JsError Bool × Nat :=
    if !jsTruthy recipientArg then
      (.error (.plainError "No recipient email address provided"), 0)
    else
      match jsSpread licensesArg itemsOf with
      | .error e => (.error e, 0)
      | .ok [] => (.error (.typeError
          "Cannot destructure property name of undefined"), 0)
      | .ok elems =>
        match renderRowsDyn elems with
        | .error e => (.error e, 0)
        | .ok _ =>
          if transportAccepts then (.ok true, 1)
          else (.error (.plainError "transport rejected"), 1)
  match inner with
  | (.ok b, n) => (.ok b, n)
  | (.error e, n) => (.error (sendEmailCatchResult e), n)

/-- The row the test-email route reads: users.email LEFT JOINed with the
settings columns (email_address is null when no settings row exists). -/
structure TestEmailUserRow where
  loginEmail : Option String
  emailAddress : Option String
deriving Repr, DecidableEq

/-- The HTTP outcome of the route. -/
inductive RouteResult where
  | ok (msg : String)
  | clientError (code : Nat) (msg : String)
  | serverError (code : Nat) (msg : String)
deriving Repr, DecidableEq

/-- GET /test-email: look the user up, resolve the recipient, then invoke
sendLicenseExpirationEmail with the six positional arguments of the old
per-license signature; only the first three bind, so the licenses parameter
receives the recipient string, the recipient parameter the synthetic
license name "Test License", and userEmail the vendor name.  Returns the
HTTP result and the number of transporter.sendMail calls. -/
def testEmailRoute (userRow : Option TestEmailUserRow)
    (transportAccepts : Bool) : RouteResult × Nat :=
  match userRow with
  | none => (.clientError 404 "User not found", 0)
  | some u =>
    let recipient := jsOr u.emailAddress u.loginEmail
    if !jsTruthy recipient then
      (.clientError 400 "No email address found for your user account", 0)
    else
      match recipient with
      | some r =>
        let out := sendLicenseExpirationEmailDyn (.str r) []
          (some "Test License") transportAccepts
        match out.1 with
        | .ok _ => (.ok ("Test email sent to " ++ r), out.2)
        | .error _ => (.serverError 500 "Failed to send test email", out.2)
      | none => (.clientError 400 "No email address found for your user account", 0)

/-! ## Concrete rows used by witnesses and counterexamples -/

/-- An active license that expired one day before day 1000. -/
def expiredActiveLicense : License :=
  ⟨1, "Legacy ERP", some "KEY-1", some "VendorA", some "CustomerA",
    999, true, false, 0⟩

/-- An active license expiring five days after day 1000. -/
def soonActiveLicense : License :=
  ⟨2, "CRM Suite", some "KEY-2", some "VendorB", some "CustomerB",
    1005, true, false, 0⟩

/-- An inactive license expiring three days after day 1000. -/
def inactiveSoonLicense : License :=
  ⟨3, "Old Tool", none, none, none, 1003, false, false, 0⟩

/-! ## C1: already-expired licenses and the selector window -/

/-- Claim C1, counterexample.  The claim quantifies over getExpiringLicenses
including the backend/services/emailService.js variant; there, a license that
expired strictly before today (day 999 against today = 1000) satisfies the
active-status constraint, daysAhead = 7 is nonnegative, the license is in the
store, and yet it is not selected: that query window starts at CURRENT_DATE. -/
theorem C1_counterexample_backend_excludes_expired :
    expiredActiveLicense.expirationDate < 1000 ∧
    expiredActiveLicense.isActive = true ∧
    (0 : Int) ≤ 7 ∧
    expiredActiveLicense ∈ [expiredActiveLicense] ∧
    expiredActiveLicense ∉ getExpiringLicenses_backend [expiredActiveLicense] 1000 7 false := by
  refine ⟨by decide, by decide, by decide, by decide, by decide⟩

/-- Claim C1, amended to the variant that implements the mixed window: in the
src/unnamed/part_011 getExpiringLicenses, every stored license whose
expiration_date is strictly before today is selected for every
daysAhead >= 0, provided the active-status constraint in force holds
(is_active = true when includeInactive = false); the backend/services
variant instead selects only licenses from today onward. -/
theorem C1_expired_always_selected_p011 (db : List License)
    (today daysAhead : Int) (includeInactive : Bool) (l : License)
    (hmem : l ∈ db) (hd : 0 ≤ daysAhead)
    (hpast : l.expirationDate < today)
    (hact : includeInactive = true ∨ l.isActive = true) :
    l ∈ getExpiringLicenses_p011 db today daysAhead includeInactive := by
  unfold getExpiringLicenses_p011
  rw [mem_sortLE]
  refine List.mem_filter.mpr ⟨hmem, ?_⟩
  unfold p011SelectPred
  rcases hact with h | h <;> simp [h, hpast]

/-- Witness for C1_expired_always_selected_p011 at a concrete store. -/
theorem C1_expired_always_selected_p011_witness :
    expiredActiveLicense ∈ [expiredActiveLicense, soonActiveLicense] ∧
    (0 : Int) ≤ 7 ∧
    expiredActiveLicense.expirationDate < 1000 ∧
    expiredActiveLicense ∈
      getExpiringLicenses_p011 [expiredActiveLicense, soonActiveLicense] 1000 7 false :=
  ⟨by decide, by decide, by decide,
    C1_expired_always_selected_p011 [expiredActiveLicense, soonActiveLicense]
      1000 7 false expiredActiveLicense (by decide) (by decide) (by decide)
      (Or.inr (by decide))⟩

/-! ## C10: the backend selector ignores includeInactive -/

/-- Claim C10: in the backend/services/emailService.js variant the result of
getExpiringLicenses does not depend on includeInactive (the query never uses
it), and every returned license has is_active = true even when
includeInactive = true. -/
theorem C10_backend_selector_ignores_includeInactive
    (db : List License) (today daysAhead : Int) :
    (∀ b1 b2 : Bool, getExpiringLicenses_backend db today daysAhead b1 =
      getExpiringLicenses_backend db today daysAhead b2) ∧
    (∀ (b : Bool) (l : License),
      l ∈ getExpiringLicenses_backend db today daysAhead b → l.isActive = true) := by
  constructor
  · intro b1 b2
    rfl
  · intro b l hl
    unfold getExpiringLicenses_backend at hl
    rw [mem_sortLE] at hl
    have h := (List.mem_filter.mp hl).2
    unfold backendSelectPred at h
    simp only [Bool.and_eq_true] at h
    exact h.2

/-- Witness for C10 at a concrete store: an inactive license in the window is
not returned even with includeInactive = true, and the two calls agree. -/
theorem C10_backend_selector_ignores_includeInactive_witness :
    (getExpiringLicenses_backend [soonActiveLicense, inactiveSoonLicense] 1000 7 true =
      getExpiringLicenses_backend [soonActiveLicense, inactiveSoonLicense] 1000 7 false) ∧
    soonActiveLicense.isActive = true ∧
    inactiveSoonLicense ∉
      getExpiringLicenses_backend [soonActiveLicense, inactiveSoonLicense] 1000 7 true :=
  ⟨(C10_backend_selector_ignores_includeInactive
      [soonActiveLicense, inactiveSoonLicense] 1000 7).1 true false,
   (C10_backend_selector_ignores_includeInactive
      [soonActiveLicense, inactiveSoonLicense] 1000 7).2 true soonActiveLicense (by decide),
   by decide⟩

/-! ## C2: recipient resolution -/

/-- Claim C2: with no userId the resolved recipient is the ADMIN_EMAIL
fallback; with a userId and a settings row, the recipient is the settings
email_address when set, otherwise the login email joined into that row; with
a userId and no settings row, the recipient is the login email returned by
getUserEmail. -/
theorem C2_recipient_resolution (env : Env) (u : Nat) :
    ((resolveRecipient env none).1 = env.adminEmail) ∧
    (∀ (s : SettingsJoinRow) (a : String),
      env.settingsRow u = some s → s.emailAddress = some a → a ≠ "" →
      (resolveRecipient env (some u)).1 = some a) ∧
    (∀ s : SettingsJoinRow,
      env.settingsRow u = some s → jsTruthy s.emailAddress = false →
      (resolveRecipient env (some u)).1 = s.loginEmail) ∧
    (∀ e : String,
      env.settingsRow u = none → env.userLoginEmail u = some e → e ≠ "" →
      (resolveRecipient env (some u)).1 = some e) := by
  refine ⟨rfl, ?_, ?_, ?_⟩
  · intro s a hs ha hane
    simp [resolveRecipient, hs, jsOr, jsTruthy, ha, hane]
  · intro s hs hfalse
    simp [resolveRecipient, hs, jsOr, hfalse]
  · intro e hs he hene
    simp [resolveRecipient, hs, getUserEmail, he, jsTruthy, hene]

/-- A concrete environment for the C2 witness: user 1 has a settings row
with an override address, user 2 has no settings row but a login email. -/
def envW : Env :=
  ⟨some "admin@example.com",
   fun uid => if uid = 1 then
      some ⟨some "override@example.com", some "login1@example.com"⟩
    else if uid = 3 then
      some ⟨none, some "login3@example.com"⟩
    else none,
   fun uid => if uid = 2 then some "login2@example.com" else none⟩

/-- Witness for C2_recipient_resolution: all three userId cases at concrete
inputs. -/
theorem C2_recipient_resolution_witness :
    (resolveRecipient envW none).1 = some "admin@example.com" ∧
    (resolveRecipient envW (some 1)).1 = some "override@example.com" ∧
    (resolveRecipient envW (some 3)).1 = some "login3@example.com" ∧
    (resolveRecipient envW (some 2)).1 = some "login2@example.com" :=
  ⟨(C2_recipient_resolution envW 1).1,
   (C2_recipient_resolution envW 1).2.1
     ⟨some "override@example.com", some "login1@example.com"⟩
     "override@example.com" rfl rfl (by decide),
   (C2_recipient_resolution envW 3).2.2.1
     ⟨none, some "login3@example.com"⟩ rfl (by decide),
   (C2_recipient_resolution envW 2).2.2.2 "login2@example.com" rfl rfl (by decide)⟩

/-! ## C4: daysUntilExpiry arithmetic -/

/-- Claim C4: daysUntilExpiry is the ceiling of (expiration - now) over one
day (characterized by the two ceiling inequalities), it is 0 for a license
whose expiration midnight is dayMid when the current instant lies anywhere
inside that day, and it is -3 when the expiration midnight was exactly three
days earlier. -/
theorem C4_daysUntilExpiry_ceiling (expiryMs nowMs dayMid t : Int)
    (h0 : 0 ≤ t) (h1 : t < msPerDay) :
    (msPerDay * (daysUntilExpiry expiryMs nowMs - 1) < expiryMs - nowMs ∧
      expiryMs - nowMs ≤ msPerDay * daysUntilExpiry expiryMs nowMs) ∧
    daysUntilExpiry dayMid (dayMid + t) = 0 ∧
    daysUntilExpiry (dayMid - 3 * msPerDay) (dayMid + t) = -3 := by
  unfold daysUntilExpiry jsCeilDiv msPerDay at *
  norm_num at *
  omega

/-- Witness for C4_daysUntilExpiry_ceiling: day number 1000 as midnight
timestamp, five seconds past midnight. -/
theorem C4_daysUntilExpiry_ceiling_witness :
    (0 : Int) ≤ 5000 ∧ (5000 : Int) < msPerDay ∧
    daysUntilExpiry (1000 * msPerDay) (1000 * msPerDay + 5000) = 0 ∧
    daysUntilExpiry (1000 * msPerDay - 3 * msPerDay) (1000 * msPerDay + 5000) = -3 :=
  ⟨by decide, by decide,
   (C4_daysUntilExpiry_ceiling 0 0 (1000 * msPerDay) 5000 (by decide) (by decide)).2.1,
   (C4_daysUntilExpiry_ceiling 0 0 (1000 * msPerDay) 5000 (by decide) (by decide)).2.2⟩

/-! ## C3: grouping and the per-recipient send loop -/

/-- The item pushed for a license in the grouping loop. -/
def groupItem (nowMs : Int) (l : License) : License × Int :=
  (l, daysUntilExpiry (l.expirationDate * msPerDay) nowMs)

theorem groupStep_skip (env : Env) (uid : Option Nat) (nowMs : Int)
    (m : List (String × Digest)) (lic : License)
    (h : jsTruthy (resolveRecipient env uid).1 = false) :
    groupStep env uid nowMs m lic = m := by
  unfold groupStep
  cases hres : (resolveRecipient env uid).1 with
  | none => rfl
  | some r =>
    rw [hres] at h
    simp only [jsTruthy] at h
    simp at h
    simp [h]

theorem groupLicenses_skip (env : Env) (uid : Option Nat) (nowMs : Int)
    (sel : List License)
    (h : jsTruthy (resolveRecipient env uid).1 = false) :
    groupLicenses env uid nowMs sel = [] := by
  unfold groupLicenses
  have hgen : ∀ (rest : List License),
      rest.foldl (groupStep env uid nowMs) [] = [] := by
    intro rest
    induction rest with
    | nil => rfl
    | cons l t ih => rw [List.foldl_cons, groupStep_skip env uid nowMs _ l h, ih]
  exact hgen sel

theorem pushToRecipient_same (r : String) (ue : Option String) (d : Digest)
    (it : License × Int) :
    pushToRecipient [(r, d)] r ue it
      = [(r, { d with licenses := d.licenses ++ [it] })] := by
  simp [pushToRecipient]

theorem foldl_groupStep_single (env : Env) (uid : Option Nat) (nowMs : Int)
    (r : String) (hr : (resolveRecipient env uid).1 = some r) (hne : ¬ r = "") :
    ∀ (sel : List License) (d : Digest),
      sel.foldl (groupStep env uid nowMs) [(r, d)]
        = [(r, { d with licenses := d.licenses ++ sel.map (groupItem nowMs) })] := by
  intro sel
  induction sel with
  | nil => intro d; simp
  | cons l t ih =>
    intro d
    rw [List.foldl_cons]
    have hstep : groupStep env uid nowMs [(r, d)] l
        = [(r, { d with licenses := d.licenses ++ [groupItem nowMs l] })] := by
      unfold groupStep
      rw [hr]
      simp only [hne, if_false]
      exact pushToRecipient_same r _ d _
    rw [hstep, ih]
    simp [List.append_assoc, groupItem]

theorem groupLicenses_single (env : Env) (uid : Option Nat) (nowMs : Int)
    (r : String) (hr : (resolveRecipient env uid).1 = some r) (hne : ¬ r = "")
    (l0 : License) (rest : List License) :
    groupLicenses env uid nowMs (l0 :: rest)
      = [(r, ⟨r, (resolveRecipient env uid).2,
          (l0 :: rest).map (groupItem nowMs)⟩)] := by
  unfold groupLicenses
  rw [List.foldl_cons]
  have hstep : groupStep env uid nowMs [] l0
      = [(r, ⟨r, (resolveRecipient env uid).2, [groupItem nowMs l0]⟩)] := by
    unfold groupStep
    rw [hr]
    simp only [hne, if_false]
    rfl
  rw [hstep, foldl_groupStep_single env uid nowMs r hr hne rest]
  simp [groupItem]

theorem sendLoop_attempted (fail : String → Bool) (markFail : Nat → Bool)
    (nowMs : Int) :
    ∀ (groups : List (String × Digest)) (store : List License),
      (sendLoop fail markFail nowMs store groups).2.1
        = (groups.filter (fun e => !e.2.licenses.isEmpty)).map Prod.fst := by
  intro groups
  induction groups with
  | nil => intro store; rfl
  | cons e rest ih =>
    intro store
    obtain ⟨r, d⟩ := e
    by_cases hd : d.licenses = []
    · simp [sendLoop, hd, ih store]
    · simp only [sendLoop, hd, if_false]
      rcases hsend : sendLicenseExpirationEmail store true (some r) (!fail r)
          markFail d.licenses nowMs with ⟨st, res⟩
      cases res with
      | ok b =>
        simp [hsend, ih st, List.filter_cons, List.isEmpty_iff, hd]
      | error e =>
        simp [hsend, ih st, List.filter_cons, List.isEmpty_iff, hd]

/-- Claim C3: within one run the grouping Map has pairwise distinct
recipient keys (at most one digest per resolved recipient address), every
selected license whose recipient resolves appears in exactly one digest of
the Map, every digest in the Map is non-empty, and the send loop only
attempts digests with a non-empty license list (no email for an empty
digest). -/
theorem C3_grouping_and_send (env : Env) (uid : Option Nat) (nowMs : Int)
    (sel : List License) (fail : String → Bool) (markFail : Nat → Bool)
    (store : List License) :
    (((groupLicenses env uid nowMs sel).map Prod.fst).Nodup) ∧
    (∀ l : License, l ∈ sel → jsTruthy (resolveRecipient env uid).1 = true →
      (groupLicenses env uid nowMs sel).countP
        (fun e => e.2.licenses.any (fun it => it.1 == l)) = 1) ∧
    (∀ e, e ∈ groupLicenses env uid nowMs sel → e.2.licenses ≠ []) ∧
    ((sendLoop fail markFail nowMs store (groupLicenses env uid nowMs sel)).2.1 =
      ((groupLicenses env uid nowMs sel).filter
        (fun e => !e.2.licenses.isEmpty)).map Prod.fst) := by
  refine ⟨?_, ?_, ?_, sendLoop_attempted fail markFail nowMs _ store⟩
  · by_cases htr : jsTruthy (resolveRecipient env uid).1 = true
    · rcases hres : (resolveRecipient env uid).1 with _ | r
      · rw [hres] at htr; simp [jsTruthy] at htr
      · have hne : ¬ r = "" := by
          rw [hres] at htr; simpa [jsTruthy] using htr
        cases sel with
        | nil => simp [groupLicenses]
        | cons l0 rest =>
          rw [groupLicenses_single env uid nowMs r hres hne l0 rest]
          simp
    · rw [groupLicenses_skip env uid nowMs sel (by simpa using htr)]
      simp
  · intro l hl htr
    rcases hres : (resolveRecipient env uid).1 with _ | r
    · rw [hres] at htr; simp [jsTruthy] at htr
    · have hne : ¬ r = "" := by
        rw [hres] at htr; simpa [jsTruthy] using htr
      cases sel with
      | nil => simp at hl
      | cons l0 rest =>
        rw [groupLicenses_single env uid nowMs r hres hne l0 rest]
        have hany : ((l0 :: rest).map (groupItem nowMs)).any
            (fun it => it.1 == l) = true := by
          rw [List.any_eq_true]
          exact ⟨groupItem nowMs l, List.mem_map_of_mem _ hl, by simp [groupItem]⟩
        rw [List.countP_cons, List.countP_nil]
        show (0 + if ((l0 :: rest).map (groupItem nowMs)).any
          (fun it => it.1 == l) = true then 1 else 0) = 1
        rw [hany]
        simp
  · intro e he
    by_cases htr : jsTruthy (resolveRecipient env uid).1 = true
    · rcases hres : (resolveRecipient env uid).1 with _ | r
      · rw [hres] at htr; simp [jsTruthy] at htr
      · have hne : ¬ r = "" := by
          rw [hres] at htr; simpa [jsTruthy] using htr
        cases sel with
        | nil => simp [groupLicenses] at he
        | cons l0 rest =>
          rw [groupLicenses_single env uid nowMs r hres hne l0 rest] at he
          simp at he
          subst he
          simp
    · rw [groupLicenses_skip env uid nowMs sel (by simpa using htr)] at he
      simp at he

/-- Witness for C3_grouping_and_send: the admin-fallback run over one
selected license produces exactly one digest. -/
theorem C3_grouping_and_send_witness :
    soonActiveLicense ∈ [soonActiveLicense] ∧
    jsTruthy (resolveRecipient envW none).1 = true ∧
    (groupLicenses envW none 0 [soonActiveLicense]).countP
      (fun e => e.2.licenses.any (fun it => it.1 == soonActiveLicense)) = 1 ∧
    ((sendLoop (fun _ => false) (fun _ => false) 0 []
        (groupLicenses envW none 0 [soonActiveLicense])).2.1 =
      ((groupLicenses envW none 0 [soonActiveLicense]).filter
        (fun e => !e.2.licenses.isEmpty)).map Prod.fst) :=
  ⟨by decide, by decide,
   (C3_grouping_and_send envW none 0 [soonActiveLicense]
      (fun _ => false) (fun _ => false) []).2.1 soonActiveLicense
      (by decide) (by decide),
   (C3_grouping_and_send envW none 0 [soonActiveLicense]
      (fun _ => false) (fun _ => false) []).2.2.2⟩

/-! ## C6: marking after a successful send, and the write frame -/

theorem markRow_idem (nowMs : Int) (l : License) :
    markRow nowMs (markRow nowMs l) = markRow nowMs l := rfl

theorem markedIds_cons (it : License × Int) (rest : List (License × Int))
    (mf : Nat → Bool) :
    markedIds (it :: rest) mf =
      if it.1.id ≠ 0 ∧ mf it.1.id = false
      then it.1.id :: markedIds rest mf else markedIds rest mf := by
  simp only [markedIds, List.map_cons, List.filter_cons]
  split
  · rename_i hcond
    simp only [Bool.and_eq_true, decide_eq_true_eq, Bool.not_eq_true'] at hcond
    rw [if_pos hcond]
  · rename_i hcond
    simp only [Bool.and_eq_true, decide_eq_true_eq, Bool.not_eq_true'] at hcond
    rw [if_neg hcond]

theorem markAllNotified_eq (mf : Nat → Bool) (nowMs : Int) :
    ∀ (items : List (License × Int)) (store : List License),
      markAllNotified store items mf nowMs
        = store.map (fun l =>
            if l.id ∈ markedIds items mf then markRow nowMs l else l) := by
  intro items
  induction items with
  | nil =>
    intro store
    simp [markAllNotified, markedIds]
  | cons it rest ih =>
    intro store
    have hcons : markAllNotified store (it :: rest) mf nowMs
        = markAllNotified
            (if it.1.id ≠ 0 then
              (if mf it.1.id then store
               else markLicenseAsNotified store it.1.id nowMs)
             else store) rest mf nowMs := rfl
    rw [hcons]
    by_cases h0 : it.1.id = 0
    · rw [if_neg (by simp [h0]), ih store, markedIds_cons]
      rw [if_neg (by simp [h0])]
    · by_cases hmf : mf it.1.id = true
      · rw [if_pos (by simp [h0]), if_pos hmf, ih store, markedIds_cons]
        rw [if_neg (by simp [hmf])]
      · rw [if_pos (by simp [h0]), if_neg (by simp [hmf])]
        have hmark : markLicenseAsNotified store it.1.id nowMs
            = store.map (fun l => if l.id = it.1.id then markRow nowMs l else l) := rfl
        rw [hmark, ih, List.map_map, markedIds_cons,
          if_pos ⟨h0, by simpa using hmf⟩]
        refine List.map_congr_left ?_
        intro l _
        by_cases hid : l.id = it.1.id
        · by_cases hin : it.1.id ∈ markedIds rest mf <;>
            simp [Function.comp, hid, hin, markRow, List.mem_cons]
        · by_cases hin : l.id ∈ markedIds rest mf <;>
            simp [Function.comp, hid, hin, List.mem_cons]

theorem sendEmail_success (store : List License) (r : String)
    (mf : Nat → Bool) (items : List (License × Int)) (nowMs : Int)
    (hr : r ≠ "") :
    sendLicenseExpirationEmail store true (some r) true mf items nowMs
      = (store.map (fun l =>
          if l.id ∈ markedIds items mf then markRow nowMs l else l), .ok true) := by
  unfold sendLicenseExpirationEmail
  simp [jsTruthy, hr, markAllNotified_eq]

theorem sendEmail_error_keeps_store (store : List License) (tok : Bool)
    (rcp : Option String) (tacc : Bool) (mf : Nat → Bool)
    (items : List (License × Int)) (nowMs : Int) (e : JsError)
    (h : (sendLicenseExpirationEmail store tok rcp tacc mf items nowMs).2 = .error e) :
    (sendLicenseExpirationEmail store tok rcp tacc mf items nowMs).1 = store := by
  unfold sendLicenseExpirationEmail at *
  by_cases h1 : tok
  · by_cases h2 : jsTruthy rcp = true
    · by_cases h3 : tacc
      · simp [h1, h2, h3] at h
      · simp [h1, h2, h3]
    · have h2f : jsTruthy rcp = false := by
        revert h2; cases jsTruthy rcp <;> simp
      simp [h1, h2f]
  · simp [h1]

theorem sendLoop_store_frame (fail : String → Bool) (mf : Nat → Bool)
    (nowMs : Int) :
    ∀ (groups : List (String × Digest)) (store : List License),
      ∃ cond : License → Bool,
        (sendLoop fail mf nowMs store groups).1
          = store.map (fun l => if cond l then markRow nowMs l else l) := by
  intro groups
  induction groups with
  | nil =>
    intro store
    exact ⟨fun _ => false, by simp [sendLoop]⟩
  | cons e rest ih =>
    intro store
    obtain ⟨r, d⟩ := e
    by_cases hd : d.licenses = []
    · obtain ⟨c, hc⟩ := ih store
      exact ⟨c, by simp [sendLoop, hd, hc]⟩
    · by_cases hr : r = ""
      · have hsend : sendLicenseExpirationEmail store true (some r) (!fail r)
            mf d.licenses nowMs
            = (store, .error (sendEmailCatchResult
                (.plainError "No recipient email address provided"))) := by
          unfold sendLicenseExpirationEmail
          simp [jsTruthy, hr]
        obtain ⟨c, hc⟩ := ih store
        exact ⟨c, by simp [sendLoop, hd, hsend, hc]⟩
      · by_cases hf : fail r = true
        · have hsend : sendLicenseExpirationEmail store true (some r) (!fail r)
              mf d.licenses nowMs
              = (store, .error (sendEmailCatchResult
                  (.plainError "transport rejected"))) := by
            unfold sendLicenseExpirationEmail
            simp [jsTruthy, hr, hf]
          obtain ⟨c, hc⟩ := ih store
          exact ⟨c, by simp [sendLoop, hd, hsend, hc]⟩
        · have hsend : sendLicenseExpirationEmail store true (some r) (!fail r)
              mf d.licenses nowMs
              = (store.map (fun l =>
                  if l.id ∈ markedIds d.licenses mf then markRow nowMs l else l),
                 .ok true) := by
            rw [show (!fail r) = true by simp [hf]]
            exact sendEmail_success store r mf d.licenses nowMs hr
          obtain ⟨c, hc⟩ := ih (store.map (fun l =>
            if l.id ∈ markedIds d.licenses mf then markRow nowMs l else l))
          refine ⟨fun l => decide (l.id ∈ markedIds d.licenses mf) || c
            (if l.id ∈ markedIds d.licenses mf then markRow nowMs l else l), ?_⟩
          have hstep : (sendLoop fail mf nowMs store ((r, d) :: rest)).1
              = (sendLoop fail mf nowMs (store.map (fun l =>
                  if l.id ∈ markedIds d.licenses mf then markRow nowMs l else l))
                  rest).1 := by
            simp [sendLoop, hd, hsend]
          rw [hstep, hc, List.map_map]
          refine List.map_congr_left ?_
          intro l _
          by_cases hin : l.id ∈ markedIds d.licenses mf
          · by_cases hcm : c (markRow nowMs l) = true <;>
              simp [Function.comp, hin, hcm, markRow]
          · simp [Function.comp, hin]
  
/-- Claim C6: after the transport accepts, the marking loop writes
notification_sent and updated_at for exactly the included licenses whose
UPDATE does not fail (one failure does not block the rest); when no send
succeeded, the store is unchanged; the row update touches no other field;
and the whole pipeline run only ever rewrites rows through that same update,
leaving every other row and field unchanged. -/
theorem C6_marking_and_write_frame (store : List License)
    (items : List (License × Int)) (markFail : Nat → Bool) (nowMs : Int) :
    (∀ r : String, r ≠ "" →
      sendLicenseExpirationEmail store true (some r) true markFail items nowMs
        = (store.map (fun l =>
            if l.id ∈ markedIds items markFail then markRow nowMs l else l),
           .ok true)) ∧
    (∀ (tok : Bool) (rcp : Option String) (tacc : Bool) (e : JsError),
      (sendLicenseExpirationEmail store tok rcp tacc markFail items nowMs).2
        = .error e →
      (sendLicenseExpirationEmail store tok rcp tacc markFail items nowMs).1
        = store) ∧
    (∀ l : License, (markRow nowMs l).id = l.id ∧ (markRow nowMs l).name = l.name ∧
      (markRow nowMs l).licenseKey = l.licenseKey ∧
      (markRow nowMs l).vendorName = l.vendorName ∧
      (markRow nowMs l).customerName = l.customerName ∧
      (markRow nowMs l).expirationDate = l.expirationDate ∧
      (markRow nowMs l).isActive = l.isActive ∧
      (markRow nowMs l).notificationSent = true) ∧
    (∀ (env : Env) (today daysAhead : Int) (includeInactive : Bool)
        (userId : Option Nat) (fail : String → Bool),
      ∃ cond : License → Bool,
        (processLicenseExpirations env store today nowMs daysAhead
            includeInactive userId fail markFail).1
          = store.map (fun l => if cond l then markRow nowMs l else l)) := by
  refine ⟨?_, ?_, ?_, ?_⟩
  · intro r hr
    exact sendEmail_success store r markFail items nowMs hr
  · intro tok rcp tacc e h
    exact sendEmail_error_keeps_store store tok rcp tacc markFail items nowMs e h
  · intro l
    exact ⟨rfl, rfl, rfl, rfl, rfl, rfl, rfl, rfl⟩
  · intro env today daysAhead includeInactive userId fail
    unfold processLicenseExpirations
    exact sendLoop_store_frame fail markFail nowMs _ store

/-- Witness for C6_marking_and_write_frame: two licenses in the digest, the
UPDATE for id 1 fails, the one for id 2 succeeds; the send still returns ok,
id 2 is marked, id 1 and every other field are untouched. -/
theorem C6_marking_and_write_frame_witness :
    ("a@b.example" : String) ≠ "" ∧
    sendLicenseExpirationEmail [expiredActiveLicense, soonActiveLicense] true
      (some "a@b.example") true (fun i => i == 1)
      [(expiredActiveLicense, -1), (soonActiveLicense, 5)] 777
      = ([expiredActiveLicense, markRow 777 soonActiveLicense], .ok true) := by
  refine ⟨by decide, ?_⟩
  rw [(C6_marking_and_write_frame [expiredActiveLicense, soonActiveLicense]
    [(expiredActiveLicense, -1), (soonActiveLicense, 5)] (fun i => i == 1) 777).1
    "a@b.example" (by decide)]
  rfl

/-! ## C7: transport failure semantics -/

/-- A one-license digest for the first recipient of the C7 run. -/
def digestR1 : Digest := ⟨"r1@x.example", some "r1@x.example", [(expiredActiveLicense, -1)]⟩

/-- A one-license digest for the second recipient of the C7 run. -/
def digestR2 : Digest := ⟨"r2@x.example", some "r2@x.example", [(soonActiveLicense, 5)]⟩

/-- Claim C7, evaluated at the failing input.  When the transport rejects,
the error that reaches processLicenseExpirations is the ReferenceError
raised inside the catch block of sendLicenseExpirationEmail (the unbound
identifier license in the log payload), not the enhanced typed error the
block goes on to construct; the per-recipient loop nevertheless catches the
error and continues: with the first mailbox failing, both recipients are
attempted and the second digest is still delivered and counted. -/
theorem C7_transport_error_and_loop_continues :
    (sendLicenseExpirationEmail [expiredActiveLicense] true (some "u@x.example")
        false (fun _ => false) [(expiredActiveLicense, -1)] 0
      = ([expiredActiveLicense], .error (.referenceError "license is not defined"))) ∧
    (JsError.referenceError "license is not defined"
      ≠ intendedEnhancedError (.plainError "transport rejected")) ∧
    ((sendLoop (fun r => r == "r1@x.example") (fun _ => false) 0
        [expiredActiveLicense, soonActiveLicense]
        [("r1@x.example", digestR1), ("r2@x.example", digestR2)]).2.1
      = ["r1@x.example", "r2@x.example"]) ∧
    ((sendLoop (fun r => r == "r1@x.example") (fun _ => false) 0
        [expiredActiveLicense, soonActiveLicense]
        [("r1@x.example", digestR1), ("r2@x.example", digestR2)]).2.2 = 1) := by
  refine ⟨rfl, by decide, rfl, rfl⟩

/-! ## C8: the scheduler registry -/

theorem hasTask_false_no_entry (reg : TaskRegistry) (uid : Nat)
    (h : hasTask reg uid = false) : ∀ p ∈ reg, p.1 ≠ uid := by
  intro p hp
  have h2 : ∀ a b : Nat, (a, b) ∈ reg → ¬ a = uid := by
    simpa [hasTask, List.any_eq_false] using h
  exact h2 p.1 p.2 (by simpa using hp)

theorem stopAndDelete_no_entry (reg : TaskRegistry) (uid : Nat) :
    ∀ p ∈ stopAndDelete reg uid, p.1 ≠ uid := by
  intro p hp
  have := (List.mem_filter.mp hp).2
  simpa using this

theorem stopAndDelete_keys_nodup (reg : TaskRegistry) (uid : Nat)
    (h : (reg.map Prod.fst).Nodup) :
    ((stopAndDelete reg uid).map Prod.fst).Nodup :=
  h.sublist ((List.filter_sublist reg).map Prod.fst)

theorem scheduleUserNotifications_keys_nodup (reg : TaskRegistry)
    (uid newTask : Nat) (timeParseOk : Bool)
    (h : (reg.map Prod.fst).Nodup) :
    ((scheduleUserNotifications reg uid timeParseOk newTask).map Prod.fst).Nodup := by
  unfold scheduleUserNotifications
  by_cases hh : hasTask reg uid = true
  · rw [if_pos hh]
    by_cases ht : timeParseOk = true
    · rw [if_pos ht, List.map_append]
      rw [List.nodup_append]
      refine ⟨stopAndDelete_keys_nodup reg uid h, List.nodup_singleton uid, ?_⟩
      intro a ha hb
      simp at hb
      obtain ⟨p, hp, hpa⟩ := List.mem_map.mp ha
      exact stopAndDelete_no_entry reg uid p hp (hpa.trans hb)
    · rw [if_neg ht]
      exact stopAndDelete_keys_nodup reg uid h
  · rw [if_neg hh]
    by_cases ht : timeParseOk = true
    · rw [if_pos ht, List.map_append, List.nodup_append]
      refine ⟨h, List.nodup_singleton uid, ?_⟩
      intro a ha hb
      simp at hb
      obtain ⟨p, hp, hpa⟩ := List.mem_map.mp ha
      exact hasTask_false_no_entry reg uid (by simpa using hh) p hp (hpa.trans hb)
    · rw [if_neg ht]
      exact h

theorem scheduleUserNotifications_only_new (reg : TaskRegistry)
    (uid newTask : Nat) :
    (scheduleUserNotifications reg uid true newTask).filter
      (fun p => p.1 = uid) = [(uid, newTask)] := by
  unfold scheduleUserNotifications
  have hfilter : ∀ (base : TaskRegistry), (∀ p ∈ base, p.1 ≠ uid) →
      (base ++ [(uid, newTask)]).filter (fun p => p.1 = uid) = [(uid, newTask)] := by
    intro base hbase
    rw [List.filter_append]
    have h1 : base.filter (fun p => p.1 = uid) = [] := by
      rw [List.filter_eq_nil_iff]
      intro p hp
      simpa using hbase p hp
    rw [h1]
    simp
  by_cases hh : hasTask reg uid = true
  · rw [if_pos hh, if_pos rfl]
    exact hfilter _ (stopAndDelete_no_entry reg uid)
  · rw [if_neg hh, if_pos rfl]
    exact hfilter _ (hasTask_false_no_entry reg uid (by simpa using hh))

theorem updateUserSchedule_keys_nodup (reg : TaskRegistry)
    (uid newTask : Nat) (row : Option Bool)
    (h : (reg.map Prod.fst).Nodup) :
    ((updateUserSchedule reg uid row newTask).map Prod.fst).Nodup := by
  unfold updateUserSchedule
  cases row with
  | some timeOk => exact scheduleUserNotifications_keys_nodup reg uid newTask timeOk h
  | none =>
    by_cases hh : hasTask reg uid = true
    · rw [if_pos hh]
      exact stopAndDelete_keys_nodup reg uid h
    · rw [if_neg hh]
      exact h

theorem updateUserSchedule_disable (reg : TaskRegistry) (uid newTask : Nat) :
    hasTask (updateUserSchedule reg uid none newTask) uid = false := by
  unfold updateUserSchedule
  by_cases hh : hasTask reg uid = true
  · rw [if_pos hh]
    rw [hasTask, List.any_eq_false]
    intro p hp
    simpa using stopAndDelete_no_entry reg uid p hp
  · rw [if_neg hh]
    simpa using hh

/-- Claim C8: both registry operations preserve the at-most-one-timer-per-
user invariant (pairwise distinct keys); scheduleUserNotifications cancels
the old timer before installing, so the only binding left for the user is
the fresh task; and after a settings update that disables send_to_email,
updateUserSchedule leaves no timer registered for that user. -/
theorem C8_scheduler_single_timer (reg : TaskRegistry) (uid newTask : Nat)
    (timeParseOk : Bool) (row : Option Bool)
    (hnd : (reg.map Prod.fst).Nodup) :
    ((scheduleUserNotifications reg uid timeParseOk newTask).map Prod.fst).Nodup ∧
    ((updateUserSchedule reg uid row newTask).map Prod.fst).Nodup ∧
    ((scheduleUserNotifications reg uid true newTask).filter
      (fun p => p.1 = uid) = [(uid, newTask)]) ∧
    (hasTask (updateUserSchedule reg uid none newTask) uid = false) :=
  ⟨scheduleUserNotifications_keys_nodup reg uid newTask timeParseOk hnd,
   updateUserSchedule_keys_nodup reg uid newTask row hnd,
   scheduleUserNotifications_only_new reg uid newTask,
   updateUserSchedule_disable reg uid newTask⟩

/-- Witness for C8_scheduler_single_timer on a concrete registry holding
timers for users 1 and 2. -/
theorem C8_scheduler_single_timer_witness :
    (([(1, 10), (2, 20)] : TaskRegistry).map Prod.fst).Nodup ∧
    ((scheduleUserNotifications [(1, 10), (2, 20)] 1 true 99).filter
      (fun p => p.1 = 1) = [(1, 99)]) ∧
    (hasTask (updateUserSchedule [(1, 10), (2, 20)] 1 none 99) 1 = false) :=
  ⟨by decide,
   (C8_scheduler_single_timer [(1, 10), (2, 20)] 1 99 true none (by decide)).2.2.1,
   (C8_scheduler_single_timer [(1, 10), (2, 20)] 1 99 true none (by decide)).2.2.2⟩

/-! ## C5: digest body sections -/

/-- The sort both sendLicenseExpirationEmail variants apply to the digest
items before rendering: ascending days until expiry. -/
def sortByDaysUntilExpiry (items : List (License × Int)) : List (License × Int) :=
  sortLE (fun a b => a.2 ≤ b.2) items

theorem mem_filter_sortByDays (p : License × Int → Bool) (x : License × Int)
    (items : List (License × Int)) :
    x ∈ (sortByDaysUntilExpiry items).filter p ↔ x ∈ items ∧ p x = true := by
  rw [List.mem_filter, sortByDaysUntilExpiry, mem_sortLE]

/-- Claim C5, amended to the part_011 variant: its body consists of an
Expired section holding exactly the items with daysUntilExpiry < 0, each
labeled with the absolute day count and "ago", followed by an Expiring Soon
section holding exactly the items with daysUntilExpiry >= 0; a section is
omitted exactly when it would be empty, every block of the body is a section
header or a rendered row of the matching partition, and the expired label
reads "3 days ago" rather than "in -3 days". -/
theorem C5_p011_two_section_body (items : List (License × Int)) :
    ((∃ n, EmailBlock.sectionHeader "Expired Licenses" n
        ∈ composeBody_p011 (sortByDaysUntilExpiry items)) ↔
      (∃ it ∈ items, it.2 < 0)) ∧
    ((∃ n, EmailBlock.sectionHeader "Expiring Soon" n
        ∈ composeBody_p011 (sortByDaysUntilExpiry items)) ↔
      (∃ it ∈ items, 0 ≤ it.2)) ∧
    (∀ it ∈ items,
      (it.2 < 0 →
        p011ExpiredRow it ∈ composeBody_p011 (sortByDaysUntilExpiry items)) ∧
      (0 ≤ it.2 →
        p011ExpiringRow it ∈ composeBody_p011 (sortByDaysUntilExpiry items))) ∧
    (∀ b ∈ composeBody_p011 (sortByDaysUntilExpiry items),
      (∃ t n, b = EmailBlock.sectionHeader t n) ∨
      (∃ it ∈ items, (it.2 < 0 ∧ b = p011ExpiredRow it) ∨
        (0 ≤ it.2 ∧ b = p011ExpiringRow it))) ∧
    (p011ExpiredStatus (-3) = "3 days ago" ∧
      p011ExpiringStatus (-3) = "in -3 days" ∧
      p011ExpiredStatus (-3) ≠ p011ExpiringStatus (-3)) := by
  refine ⟨?_, ?_, ?_, ?_, by decide, by decide, by decide⟩
  · constructor
    · rintro ⟨n, hn⟩
      unfold composeBody_p011 at hn
      rw [List.mem_append] at hn
      rcases hn with h | h
      · by_cases hlen : ((sortByDaysUntilExpiry items).filter
            (fun it => it.2 < 0)).length > 0
        · obtain ⟨x, hx⟩ := List.exists_mem_of_length_pos hlen
          have hx2 := (mem_filter_sortByDays _ x items).mp hx
          exact ⟨x, hx2.1, by simpa using hx2.2⟩
        · rw [if_neg hlen] at h
          simp at h
      · by_cases hlen2 : ((sortByDaysUntilExpiry items).filter
            (fun it => it.2 ≥ 0)).length > 0
        · rw [if_pos hlen2] at h
          rcases List.mem_cons.mp h with hh | hh
          · simp at hh
          · obtain ⟨it2, _, hb2⟩ := List.mem_map.mp hh
            simp [p011ExpiringRow] at hb2
        · rw [if_neg hlen2] at h
          simp at h
    · rintro ⟨it, hit, hneg⟩
      refine ⟨((sortByDaysUntilExpiry items).filter
        (fun it => it.2 < 0)).length, ?_⟩
      unfold composeBody_p011
      rw [List.mem_append]
      left
      have hmemf : it ∈ (sortByDaysUntilExpiry items).filter
          (fun it => it.2 < 0) :=
        (mem_filter_sortByDays _ it items).mpr ⟨hit, by simpa using hneg⟩
      have hlen : ((sortByDaysUntilExpiry items).filter
          (fun it => it.2 < 0)).length > 0 :=
        List.length_pos.mpr (List.ne_nil_of_mem hmemf)
      rw [if_pos hlen]
      exact List.mem_cons_self _ _
  · constructor
    · rintro ⟨n, hn⟩
      unfold composeBody_p011 at hn
      rw [List.mem_append] at hn
      rcases hn with h | h
      · by_cases hlen : ((sortByDaysUntilExpiry items).filter
            (fun it => it.2 < 0)).length > 0
        · rw [if_pos hlen] at h
          rcases List.mem_cons.mp h with hh | hh
          · simp at hh
          · obtain ⟨it2, _, hb2⟩ := List.mem_map.mp hh
            simp [p011ExpiredRow] at hb2
        · rw [if_neg hlen] at h
          simp at h
      · by_cases hlen2 : ((sortByDaysUntilExpiry items).filter
            (fun it => it.2 ≥ 0)).length > 0
        · obtain ⟨x, hx⟩ := List.exists_mem_of_length_pos hlen2
          have hx2 := (mem_filter_sortByDays _ x items).mp hx
          exact ⟨x, hx2.1, by simpa using hx2.2⟩
        · rw [if_neg hlen2] at h
          simp at h
    · rintro ⟨it, hit, hpos⟩
      refine ⟨((sortByDaysUntilExpiry items).filter
        (fun it => it.2 ≥ 0)).length, ?_⟩
      unfold composeBody_p011
      rw [List.mem_append]
      right
      have hmemf : it ∈ (sortByDaysUntilExpiry items).filter
          (fun it => it.2 ≥ 0) :=
        (mem_filter_sortByDays _ it items).mpr ⟨hit, by simpa using hpos⟩
      have hlen : ((sortByDaysUntilExpiry items).filter
          (fun it => it.2 ≥ 0)).length > 0 :=
        List.length_pos.mpr (List.ne_nil_of_mem hmemf)
      rw [if_pos hlen]
      exact List.mem_cons_self _ _
  · intro it hit
    constructor
    · intro hneg
      unfold composeBody_p011
      rw [List.mem_append]
      left
      have hmemf : it ∈ (sortByDaysUntilExpiry items).filter
          (fun it => it.2 < 0) :=
        (mem_filter_sortByDays _ it items).mpr ⟨hit, by simpa using hneg⟩
      rw [if_pos (List.length_pos.mpr (List.ne_nil_of_mem hmemf))]
      exact List.mem_cons_of_mem _ (List.mem_map_of_mem _ hmemf)
    · intro hpos
      unfold composeBody_p011
      rw [List.mem_append]
      right
      have hmemf : it ∈ (sortByDaysUntilExpiry items).filter
          (fun it => it.2 ≥ 0) :=
        (mem_filter_sortByDays _ it items).mpr ⟨hit, by simpa using hpos⟩
      rw [if_pos (List.length_pos.mpr (List.ne_nil_of_mem hmemf))]
      exact List.mem_cons_of_mem _ (List.mem_map_of_mem _ hmemf)
  · intro b hb
    unfold composeBody_p011 at hb
    rw [List.mem_append] at hb
    rcases hb with h | h
    · by_cases hlen : ((sortByDaysUntilExpiry items).filter
          (fun it => it.2 < 0)).length > 0
      · rw [if_pos hlen] at h
        rcases List.mem_cons.mp h with h | h
        · exact Or.inl ⟨_, _, h⟩
        · obtain ⟨it, hitf, hb⟩ := List.mem_map.mp h
          have hit2 := (mem_filter_sortByDays _ it items).mp hitf
          exact Or.inr ⟨it, hit2.1, Or.inl ⟨by simpa using hit2.2, hb.symm⟩⟩
      · rw [if_neg hlen] at h
        simp at h
    · by_cases hlen2 : ((sortByDaysUntilExpiry items).filter
          (fun it => it.2 ≥ 0)).length > 0
      · rw [if_pos hlen2] at h
        rcases List.mem_cons.mp h with h | h
        · exact Or.inl ⟨_, _, h⟩
        · obtain ⟨it, hitf, hb⟩ := List.mem_map.mp h
          have hit2 := (mem_filter_sortByDays _ it items).mp hitf
          exact Or.inr ⟨it, hit2.1, Or.inr ⟨by simpa using hit2.2, hb.symm⟩⟩
      · rw [if_neg hlen2] at h
        simp at h

/-- Witness for C5_p011_two_section_body on a concrete digest with one
expired and one future item. -/
theorem C5_p011_two_section_body_witness :
    (expiredActiveLicense, (-2 : Int)) ∈
      [((expiredActiveLicense : License), (-2 : Int)), (soonActiveLicense, 5)] ∧
    ((-2 : Int) < 0) ∧
    p011ExpiredRow (expiredActiveLicense, -2) ∈
      composeBody_p011 (sortByDaysUntilExpiry
        [(expiredActiveLicense, -2), (soonActiveLicense, 5)]) :=
  ⟨by decide, by decide,
   ((C5_p011_two_section_body
      [(expiredActiveLicense, -2), (soonActiveLicense, 5)]).2.2.1
      (expiredActiveLicense, -2) (by decide)).1 (by decide)⟩

/-- Claim C5, counterexample on the backend/services/emailService.js
variant the claim also covers: for the digest holding one already-expired
and one future item, the rendered body is a single table with no section
structure at all (no block is a section header), although the claim
requires an Expired section to be present. -/
theorem C5_counterexample_backend_single_table :
    ((expiredActiveLicense, (-2 : Int)).2 < 0) ∧
    ((composeBody_backend (sortByDaysUntilExpiry
        [((expiredActiveLicense : License), (-2 : Int)), (soonActiveLicense, 5)])).all
      (fun b => match b with
        | EmailBlock.sectionHeader _ _ => false
        | EmailBlock.row _ _ _ _ => true) = true) ∧
    (composeBody_backend (sortByDaysUntilExpiry
        [((expiredActiveLicense : License), (-2 : Int)), (soonActiveLicense, 5)])).length = 2 := by
  refine ⟨by decide, by decide, by decide⟩

/-! ## C9: the test-email endpoint -/

/-- The joined row for the C9 run: a user with a login email and no
notification-settings row. -/
def testUserRow : TestEmailUserRow := ⟨some "user@example.com", none⟩

/-- Claim C9, evaluated at the failing input.  For a user whose resolved
recipient is the login email and a transport that would accept any message,
the endpoint still answers 500 and performs zero transporter.sendMail calls:
the route passes the six old positional arguments, the recipient string is
bound to the licenses parameter, and rendering raises a TypeError (reading
expiration_date of undefined) inside the try block, rethrown by the catch
block as the ReferenceError.  No synthetic-license digest is ever sent. -/
theorem C9_test_email_never_sends :
    (testEmailRoute (some testUserRow) true
      = (.serverError 500 "Failed to send test email", 0)) ∧
    ((sendLicenseExpirationEmailDyn (.str "user@example.com") []
        (some "Test License") true).1
      = .error (.referenceError "license is not defined")) ∧
    ((sendLicenseExpirationEmailDyn (.str "user@example.com") []
        (some "Test License") true).2 = 0) := by
  refine ⟨by decide, rfl, by decide⟩

end LicenseMgmt
